import Mathlib

/-!
Shallow embedding of `lib/strategy.js` from `passport-azure-oauth2`.

The strategy has three parts that the claims talk about:
 - the `Strategy` constructor, which fills in `authorizationURL`, `tokenURL`
   and `scopeSeparator` on the caller's options object (`strategyInit` below);
 - the pure parameter builders `authorizationParams` and `tokenParams`;
 - `userProfile`, which decodes the JWT-style access token (split on `.`,
   base64-decode segment 1, UTF-8 decode, `JSON.parse`) and builds a profile
   object, calling `done(null, profile)` on success.  Its `catch` block reads
   the undeclared identifier `ex` (the caught variable is named `exception`),
   so on any decode failure a `ReferenceError` is thrown and the callback is
   never invoked; `ProfileOutcome.refError` models that outcome.

JavaScript values reachable in this code are modelled by `JsValue`.  Numbers
keep their source lexeme: the strategy never computes with them, and the one
place a number could surface as text (string-coercing a number-valued name
claim into `displayname`) would print the parsed double in JavaScript, a
float-formatting corner no claim exercises - every claim theorem evaluates
string-valued claims only.  The Node built-ins used by the code are
modelled as follows: `String.prototype.split` with a one-character separator
(`splitOnDot`), `new Buffer(str, 'base64')` as a lenient base64 decoder
whose table covers both the standard and the URL-safe alphabets, stops at
the first `=` and skips other non-table characters (`base64Decode`),
`Buffer.prototype.toString('utf-8')` as UTF-8 decoding with U+FFFD
replacement of invalid sequences (`utf8Decode`), and `JSON.parse`
(`jsonParse`, which keeps the last value for a duplicated object key, as
JavaScript does).
-/

/-- A JavaScript value as used by this code: `undef` is `undefined`,
`num` keeps the number's source lexeme, `obj` is an ordered string-keyed
record. -/
inductive JsValue : Type where
  | undef : JsValue
  | null : JsValue
  | bool (b : Bool) : JsValue
  | num (lexeme : String) : JsValue
  | str (s : String) : JsValue
  | arr (elems : List JsValue) : JsValue
  | obj (fields : List (String × JsValue)) : JsValue

mutual

/-- JavaScript string coercion (the `+` operator on a string and a value),
for the values reachable here: `undefined` prints as `"undefined"`, arrays
join their elements with `,`, plain objects print as `[object Object]`. -/
def jsToString : JsValue → String
  | JsValue.undef => "undefined"
  | JsValue.null => "null"
  | JsValue.bool b => if b then "true" else "false"
  | JsValue.num lex => lex
  | JsValue.str s => s
  | JsValue.arr es => jsListToString es
  | JsValue.obj _ => "[object Object]"

/-- Array element coercion inside `Array.prototype.join`: `null` and
`undefined` elements become the empty string. -/
def jsElemToString : JsValue → String
  | JsValue.undef => ""
  | JsValue.null => ""
  | JsValue.bool b => if b then "true" else "false"
  | JsValue.num lex => lex
  | JsValue.str s => s
  | JsValue.arr es => jsListToString es
  | JsValue.obj _ => "[object Object]"

/-- `Array.prototype.toString`, i.e. `join(',')`. -/
def jsListToString : List JsValue → String
  | [] => ""
  | [e] => jsElemToString e
  | e :: e2 :: es => jsElemToString e ++ "," ++ jsListToString (e2 :: es)

end

/-- Property lookup on an object's ordered field list. -/
def lookupField : List (String × JsValue) → String → Option JsValue
  | [], _ => none
  | (k, v) :: rest, key => if k = key then some v else lookupField rest key

/-- JavaScript property access `v[key]` for the values reachable here: a
missing property (and any property of a non-object primitive) reads as
`undefined`.  The code never reads a property of `null`/`undefined` (that
would throw and is handled separately in `userProfile`). -/
def jsGet (v : JsValue) (key : String) : JsValue :=
  match v with
  | JsValue.obj fields =>
    match lookupField fields key with
    | some w => w
    | none => JsValue.undef
  | _ => JsValue.undef

/-- `accessToken.split('.')` - helper accumulating the current segment in
reverse. -/
def splitOnDotAux : List Char → List Char → List String
  | [], acc => [String.mk acc.reverse]
  | c :: rest, acc =>
    if c = '.' then String.mk acc.reverse :: splitOnDotAux rest []
    else splitOnDotAux rest (c :: acc)

/-- JavaScript `s.split('.')`: always yields at least one segment, and
`"".split('.')` yields `[""]`. -/
def splitOnDot (s : String) : List String := splitOnDotAux s.data []

/-- Value of one base64 digit, after Node's decode table: it accepts both
the standard alphabet (`+`, `/`) and the RFC 4648 URL-safe alphabet
(`-`, `_`) - JWT payloads use the latter; `none` for every other
character, which Node's decoder skips. -/
def b64Val (c : Char) : Option Nat :=
  if 'A' ≤ c ∧ c ≤ 'Z' then some (c.toNat - 65)
  else if 'a' ≤ c ∧ c ≤ 'z' then some (c.toNat - 97 + 26)
  else if '0' ≤ c ∧ c ≤ '9' then some (c.toNat - 48 + 52)
  else if c = '+' ∨ c = '-' then some 62
  else if c = '/' ∨ c = '_' then some 63
  else none

/-- Reassemble 6-bit groups into bytes: 4 groups give 3 bytes, a trailing
pair or triple gives 1 or 2 bytes, a lone trailing group is dropped. -/
def b64Groups : List Nat → List Nat
  | a :: b :: c :: d :: rest =>
    (a * 4 + b / 16) :: ((b % 16) * 16 + c / 4) :: ((c % 4) * 64 + d) :: b64Groups rest
  | [a, b] => [a * 4 + b / 16]
  | [a, b, c] => [a * 4 + b / 16, (b % 16) * 16 + c / 4]
  | _ => []

/-- `new Buffer(payload, 'base64')`: lenient base64 decoding to a byte
list - decoding stops at the first `=`, characters outside the decode
table are skipped, no failure is possible. -/
def base64Decode (s : String) : List Nat :=
  b64Groups ((s.data.takeWhile (fun c => c ≠ '=')).filterMap b64Val)

/-- The U+FFFD replacement character. -/
def replChar : Char := Char.ofNat 0xFFFD

/-- Fuelled UTF-8 decoding of a byte list; every step consumes at least one
byte, so fuel equal to the list length is exact.  Invalid sequences decode
to U+FFFD and no byte is ever dropped: an incomplete multibyte sequence at
the end of input gives one U+FFFD when only continuation bytes follow its
lead byte, and otherwise a U+FFFD followed by the decoding of the remaining
bytes (Node's `toString('utf-8')` behaviour on well-formed input;
replacement-character counts in malformed corners are approximate, which no
claim depends on). -/
def utf8DecodeAux : Nat → List Nat → List Char
  | 0, _ => []
  | _ + 1, [] => []
  | fuel + 1, b :: rest =>
    if b < 0x80 then Char.ofNat b :: utf8DecodeAux fuel rest
    else if b < 0xC2 then replChar :: utf8DecodeAux fuel rest
    else if b < 0xE0 then
      match rest with
      | b2 :: rest2 =>
        if 0x80 ≤ b2 ∧ b2 < 0xC0 then
          Char.ofNat ((b - 0xC0) * 64 + (b2 - 0x80)) :: utf8DecodeAux fuel rest2
        else replChar :: utf8DecodeAux fuel rest
      | [] => [replChar]
    else if b < 0xF0 then
      match rest with
      | b2 :: b3 :: rest3 =>
        if (0x80 ≤ b2 ∧ b2 < 0xC0) ∧ (0x80 ≤ b3 ∧ b3 < 0xC0) then
          let cp := (b - 0xE0) * 4096 + (b2 - 0x80) * 64 + (b3 - 0x80)
          if 0x800 ≤ cp ∧ (cp < 0xD800 ∨ 0xDFFF < cp) then
            Char.ofNat cp :: utf8DecodeAux fuel rest3
          else replChar :: utf8DecodeAux fuel rest
        else replChar :: utf8DecodeAux fuel rest
      | _ =>
        if rest.all (fun x => x / 64 == 2) then [replChar]
        else replChar :: utf8DecodeAux fuel rest
    else if b < 0xF5 then
      match rest with
      | b2 :: b3 :: b4 :: rest4 =>
        if (0x80 ≤ b2 ∧ b2 < 0xC0) ∧ (0x80 ≤ b3 ∧ b3 < 0xC0) ∧ (0x80 ≤ b4 ∧ b4 < 0xC0) then
          let cp := (b - 0xF0) * 262144 + (b2 - 0x80) * 4096 + (b3 - 0x80) * 64 + (b4 - 0x80)
          if 0x10000 ≤ cp ∧ cp ≤ 0x10FFFF then
            Char.ofNat cp :: utf8DecodeAux fuel rest4
          else replChar :: utf8DecodeAux fuel rest
        else replChar :: utf8DecodeAux fuel rest
      | _ =>
        if rest.all (fun x => x / 64 == 2) then [replChar]
        else replChar :: utf8DecodeAux fuel rest
    else replChar :: utf8DecodeAux fuel rest

/-- `buffer.toString('utf-8')`: decode a byte list to text, never fails. -/
def utf8Decode (bs : List Nat) : String :=
  String.mk (utf8DecodeAux bs.length bs)

/-- Is the character JSON whitespace? -/
def isJsonWs (c : Char) : Bool :=
  c = ' ' || c = '\t' || c = '\n' || c = '\r'

/-- Skip leading JSON whitespace. -/
def skipWs : List Char → List Char
  | [] => []
  | c :: rest => if isJsonWs c then skipWs rest else c :: rest

/-- Hex digit value, `none` otherwise. -/
def hexVal (c : Char) : Option Nat :=
  if '0' ≤ c ∧ c ≤ '9' then some (c.toNat - 48)
  else if 'a' ≤ c ∧ c ≤ 'f' then some (c.toNat - 97 + 10)
  else if 'A' ≤ c ∧ c ≤ 'F' then some (c.toNat - 65 + 10)
  else none

/-- Longest leading run of decimal digits. -/
def takeDigits : List Char → List Char × List Char
  | [] => ([], [])
  | c :: rest =>
    if c.isDigit then
      let p := takeDigits rest
      (c :: p.1, p.2)
    else ([], c :: rest)

/-- Parse the optional JSON fraction part, returning its lexeme characters. -/
def parseFrac : List Char → Option (List Char × List Char)
  | '.' :: rest =>
    match takeDigits rest with
    | ([], _) => none
    | (ds, r) => some ('.' :: ds, r)
  | cs => some ([], cs)

/-- Parse the optional JSON exponent part, returning its lexeme characters. -/
def parseExp (cs : List Char) : Option (List Char × List Char) :=
  match cs with
  | c :: rest =>
    if c = 'e' ∨ c = 'E' then
      let p : List Char × List Char :=
        match rest with
        | '+' :: r => (['+'], r)
        | '-' :: r => (['-'], r)
        | r => ([], r)
      match takeDigits p.2 with
      | ([], _) => none
      | (ds, r) => some (c :: p.1 ++ ds, r)
    else some ([], cs)
  | [] => some ([], [])

/-- Parse a JSON number, keeping the accepted lexeme. -/
def parseNumberLex (cs : List Char) : Option (String × List Char) :=
  let p : List Char × List Char :=
    match cs with
    | '-' :: r => (['-'], r)
    | r => ([], r)
  match p.2 with
  | c :: rest =>
    if c = '0' then
      match rest with
      | d :: _ =>
        if d.isDigit then none
        else
          match parseFrac rest with
          | none => none
          | some (f, r2) =>
            match parseExp r2 with
            | none => none
            | some (e, r3) => some (String.mk (p.1 ++ [c] ++ f ++ e), r3)
      | [] => some (String.mk (p.1 ++ [c]), [])
    else if c.isDigit then
      let q := takeDigits rest
      match parseFrac q.2 with
      | none => none
      | some (f, r2) =>
        match parseExp r2 with
        | none => none
        | some (e, r3) => some (String.mk (p.1 ++ c :: q.1 ++ f ++ e), r3)
    else none
  | [] => none

/-- Parse the body of a JSON string literal (after the opening quote),
fuelled by the remaining input length.  Raw control characters and unknown
escapes are rejected, as `JSON.parse` rejects them.  A valid surrogate pair
combines into one code point; a lone surrogate becomes U+FFFD (a deviation
forced by `Char` holding scalar values only - no claim touches it). -/
def parseStringBody : Nat → List Char → Option (List Char × List Char)
  | 0, _ => none
  | _ + 1, [] => none
  | fuel + 1, c :: rest =>
    if c = '"' then some ([], rest)
    else if c = '\\' then
      match rest with
      | [] => none
      | e :: rest2 =>
        if e = '"' ∨ e = '\\' ∨ e = '/' then
          match parseStringBody fuel rest2 with
          | none => none
          | some (s, r) => some (e :: s, r)
        else if e = 'b' then
          match parseStringBody fuel rest2 with
          | none => none
          | some (s, r) => some (Char.ofNat 8 :: s, r)
        else if e = 'f' then
          match parseStringBody fuel rest2 with
          | none => none
          | some (s, r) => some (Char.ofNat 12 :: s, r)
        else if e = 'n' then
          match parseStringBody fuel rest2 with
          | none => none
          | some (s, r) => some ('\n' :: s, r)
        else if e = 'r' then
          match parseStringBody fuel rest2 with
          | none => none
          | some (s, r) => some ('\r' :: s, r)
        else if e = 't' then
          match parseStringBody fuel rest2 with
          | none => none
          | some (s, r) => some ('\t' :: s, r)
        else if e = 'u' then
          match rest2 with
          | h1 :: h2 :: h3 :: h4 :: rest3 =>
            match hexVal h1, hexVal h2, hexVal h3, hexVal h4 with
            | some v1, some v2, some v3, some v4 =>
              let cp := v1 * 4096 + v2 * 256 + v3 * 16 + v4
              if cp < 0xD800 ∨ 0xDFFF < cp then
                match parseStringBody fuel rest3 with
                | none => none
                | some (s, r) => some (Char.ofNat cp :: s, r)
              else if cp < 0xDC00 then
                match rest3 with
                | '\\' :: 'u' :: g1 :: g2 :: g3 :: g4 :: rest4 =>
                  match hexVal g1, hexVal g2, hexVal g3, hexVal g4 with
                  | some w1, some w2, some w3, some w4 =>
                    let lo := w1 * 4096 + w2 * 256 + w3 * 16 + w4
                    if 0xDC00 ≤ lo ∧ lo ≤ 0xDFFF then
                      match parseStringBody fuel rest4 with
                      | none => none
                      | some (s, r) =>
                        some (Char.ofNat (0x10000 + (cp - 0xD800) * 1024 + (lo - 0xDC00)) :: s, r)
                    else
                      match parseStringBody fuel rest3 with
                      | none => none
                      | some (s, r) => some (replChar :: s, r)
                  | _, _, _, _ =>
                    match parseStringBody fuel rest3 with
                    | none => none
                    | some (s, r) => some (replChar :: s, r)
                | _ =>
                  match parseStringBody fuel rest3 with
                  | none => none
                  | some (s, r) => some (replChar :: s, r)
              else
                match parseStringBody fuel rest3 with
                | none => none
                | some (s, r) => some (replChar :: s, r)
            | _, _, _, _ => none
          | _ => none
        else none
    else if c.toNat < 0x20 then none
    else
      match parseStringBody fuel rest with
      | none => none
      | some (s, r) => some (c :: s, r)

/-- Record an object member, overwriting the value of an existing key in
place as JavaScript property assignment does. -/
def insertField (fields : List (String × JsValue)) (k : String) (v : JsValue) :
    List (String × JsValue) :=
  match fields with
  | [] => [(k, v)]
  | (k1, v1) :: rest =>
    if k1 = k then (k1, v) :: rest else (k1, v1) :: insertField rest k v

mutual

/-- Fuelled parse of one JSON value (after the grammar of `JSON.parse`).
Fuel `2 * length + 8` is always sufficient: every mutual call either
consumes a character first or moves to a subterm that does. -/
def parseValue : Nat → List Char → Option (JsValue × List Char)
  | 0, _ => none
  | fuel + 1, cs =>
    match skipWs cs with
    | 'n' :: 'u' :: 'l' :: 'l' :: rest => some (JsValue.null, rest)
    | 't' :: 'r' :: 'u' :: 'e' :: rest => some (JsValue.bool true, rest)
    | 'f' :: 'a' :: 'l' :: 's' :: 'e' :: rest => some (JsValue.bool false, rest)
    | '"' :: rest =>
      match parseStringBody (rest.length + 1) rest with
      | none => none
      | some (s, r) => some (JsValue.str (String.mk s), r)
    | '[' :: rest =>
      match skipWs rest with
      | ']' :: r2 => some (JsValue.arr [], r2)
      | _ => parseElems fuel rest []
    | '{' :: rest =>
      match skipWs rest with
      | '}' :: r2 => some (JsValue.obj [], r2)
      | _ => parseMembers fuel rest []
    | cs2 =>
      match parseNumberLex cs2 with
      | none => none
      | some (lex, r) => some (JsValue.num lex, r)

/-- Fuelled parse of the remaining elements of a non-empty JSON array. -/
def parseElems : Nat → List Char → List JsValue → Option (JsValue × List Char)
  | 0, _, _ => none
  | fuel + 1, cs, acc =>
    match parseValue fuel cs with
    | none => none
    | some (v, r) =>
      match skipWs r with
      | ',' :: r2 => parseElems fuel r2 (acc ++ [v])
      | ']' :: r2 => some (JsValue.arr (acc ++ [v]), r2)
      | _ => none

/-- Fuelled parse of the remaining members of a non-empty JSON object. -/
def parseMembers : Nat → List Char → List (String × JsValue) →
    Option (JsValue × List Char)
  | 0, _, _ => none
  | fuel + 1, cs, acc =>
    match skipWs cs with
    | '"' :: rest =>
      match parseStringBody (rest.length + 1) rest with
      | none => none
      | some (k, r) =>
        match skipWs r with
        | ':' :: r2 =>
          match parseValue fuel r2 with
          | none => none
          | some (v, r3) =>
            match skipWs r3 with
            | ',' :: r4 => parseMembers fuel r4 (insertField acc (String.mk k) v)
            | '}' :: r4 => some (JsValue.obj (insertField acc (String.mk k) v), r4)
            | _ => none
        | _ => none
    | _ => none

end

/-- `JSON.parse(text)`: parse one JSON value and require only whitespace
after it; any violation of the JSON grammar yields `none` (an exception in
the source). -/
def jsonParse (s : String) : Option JsValue :=
  match parseValue (2 * s.length + 8) s.data with
  | none => none
  | some (v, rest) =>
    match skipWs rest with
    | [] => some v
    | _ => none

/-- Outcome of a `userProfile` call, tracking what happens to the `done`
callback. -/
inductive ProfileOutcome : Type where
  /-- `done(null, profile)` was invoked once, with the given profile. -/
  | success (profile : JsValue) : ProfileOutcome
  /-- The `try` block threw, and the `catch` block evaluated the undeclared
  identifier `ex` (the caught variable is named `exception`), so a
  `ReferenceError` escaped `userProfile` and `done` was never invoked. -/
  | refError : ProfileOutcome

/-- The profile object assigned field by field in `userProfile`, in source
order; note the source writes the lowercase key `displayname`, so the
`displayName` key its own doc comment promises is never set. -/
def buildProfile (tokenUTF8 : String) (tokenJson : JsValue) : JsValue :=
  JsValue.obj
    [ ("provider", JsValue.str "azure"),
      ("utf8", JsValue.str tokenUTF8),
      ("json", tokenJson),
      ("id", jsGet tokenJson "oid"),
      ("orgId", jsGet tokenJson "tid"),
      ("username", jsGet tokenJson "unique_name"),
      ("displayname", JsValue.str
        (jsToString (jsGet tokenJson "given_name") ++ " " ++
          jsToString (jsGet tokenJson "family_name"))),
      ("name", JsValue.obj
        [ ("familyName", jsGet tokenJson "family_name"),
          ("givenName", jsGet tokenJson "given_name") ]),
      ("emails", JsValue.arr [jsGet tokenJson "email"]) ]

/-- `Strategy.prototype.userProfile(accessToken, done)`.  A missing payload
segment makes `new Buffer(undefined, 'base64')` throw; garbage that fails
`JSON.parse` throws; a payload decoding to JSON `null` makes the
`tokenJson.oid` access throw.  Every throw lands in the buggy `catch`
block, which itself throws `ReferenceError` on the undeclared `ex`
instead of calling `done`. -/
def userProfile (accessToken : String) : ProfileOutcome :=
  match (splitOnDot accessToken)[1]? with
  | none => ProfileOutcome.refError
  | some tokenBase64 =>
    let tokenUTF8 := utf8Decode (base64Decode tokenBase64)
    match jsonParse tokenUTF8 with
    | none => ProfileOutcome.refError
    | some JsValue.null => ProfileOutcome.refError
    | some tokenJson => ProfileOutcome.success (buildProfile tokenUTF8 tokenJson)

/-- The caller's options object, with one field per key this strategy reads
or writes.  `none` models an absent (or `undefined`) key; `other` carries
every remaining property (e.g. `clientID`, `clientSecret`, `callbackURL`),
which the constructor only forwards. -/
structure Options : Type where
  tenantID : Option String := none
  authorizationURL : Option String := none
  tokenURL : Option String := none
  scopeSeparator : Option String := none
  domain_hint : Option String := none
  login_hint : Option String := none
  prompt : Option String := none
  resource : Option String := none
  other : List (String × String) := []
deriving DecidableEq

/-- JavaScript `v || d` for a possibly-absent string `v`: both `undefined`
and the empty string are falsy and select the default. -/
def jsOrDefault (v : Option String) (d : String) : String :=
  match v with
  | some s => if s = "" then d else s
  | none => d

/-- String interpolation of a possibly-absent value: an absent `tenantID`
concatenates as the text `undefined`. -/
def coerceUndef (v : Option String) : String :=
  match v with
  | some s => s
  | none => "undefined"

/-- The derived authorization endpoint template. -/
def authorizeURLFor (tenantID : Option String) : String :=
  "https://login.windows.net/" ++ coerceUndef tenantID ++ "/oauth2/authorize?api-version=1.0"

/-- The derived token endpoint template. -/
def tokenURLFor (tenantID : Option String) : String :=
  "https://login.windows.net/" ++ coerceUndef tenantID ++ "/oauth2/token?api-version=1.0"

/-- The `Strategy` constructor's writes to the caller's `options` object
(before delegating to the external `OAuth2Strategy` constructor, which is
outside this repository): it assigns `options.authorizationURL`,
`options.tokenURL` and `options.scopeSeparator` in place with `||`
defaults and touches nothing else. -/
def strategyInit (options : Options) : Options :=
  { options with
    authorizationURL :=
      some (jsOrDefault options.authorizationURL (authorizeURLFor options.tenantID)),
    tokenURL :=
      some (jsOrDefault options.tokenURL (tokenURLFor options.tenantID)),
    scopeSeparator := some (jsOrDefault options.scopeSeparator ",") }

/-- One `if (options.key) params.key = options.key;` statement: the entry
is emitted only when the value is truthy (present and non-empty). -/
def entryIf (key : String) (v : Option String) : List (String × String) :=
  match v with
  | some s => if s = "" then [] else [(key, s)]
  | none => []

/-- `Strategy.prototype.authorizationParams(options)`: the four optional
entries in source order. -/
def authorizationParams (options : Options) : List (String × String) :=
  entryIf "domain_hint" options.domain_hint ++
    entryIf "login_hint" options.login_hint ++
    entryIf "prompt" options.prompt ++
    entryIf "resource" options.resource

/-- `Strategy.prototype.tokenParams(options)`: only `resource`. -/
def tokenParams (options : Options) : List (String × String) :=
  entryIf "resource" options.resource

/-- A well-formed three-segment token whose payload is the base64 text of
a JSON claim set holding all six consumed claims (with values a-f). -/
def sampleToken : String :=
  "header.eyJvaWQiOiJhIiwidGlkIjoiYiIsInVuaXF1ZV9uYW1lIjoiYyIsImdpdmVuX25hbWUiOiJkIiwiZmFtaWx5X25hbWUiOiJlIiwiZW1haWwiOiJmIn0=.sig"

/-- The claim set carried by `sampleToken`'s payload. -/
def sampleClaims : List (String × JsValue) :=
  [ ("oid", JsValue.str "a"),
    ("tid", JsValue.str "b"),
    ("unique_name", JsValue.str "c"),
    ("given_name", JsValue.str "d"),
    ("family_name", JsValue.str "e"),
    ("email", JsValue.str "f") ]

/-- The profile `userProfile` hands to `done` for `sampleToken`. -/
def sampleProfile : JsValue :=
  buildProfile
    "\x7b\"oid\":\"a\",\"tid\":\"b\",\"unique_name\":\"c\",\"given_name\":\"d\",\"family_name\":\"e\",\"email\":\"f\"\x7d"
    (JsValue.obj sampleClaims)

/-- Membership in the list produced by one `if (options.key)` statement. -/
theorem mem_entryIf (k v key : String) (ov : Option String) :
    (k, v) ∈ entryIf key ov ↔ (k = key ∧ ov = some v ∧ v ≠ "") := by
  cases ov with
  | none => simp [entryIf]
  | some s =>
    by_cases hs : s = ""
    · subst hs
      have he : entryIf key (some "") = [] := by simp [entryIf]
      rw [he]
      simp only [List.not_mem_nil, false_iff]
      rintro ⟨-, hv, hne⟩
      exact hne (Option.some.inj hv).symm
    · simp only [entryIf, if_neg hs, List.mem_singleton, Prod.mk.injEq,
        Option.some.injEq]
      constructor
      · rintro ⟨rfl, rfl⟩
        exact ⟨rfl, rfl, hs⟩
      · rintro ⟨rfl, rfl, -⟩
        exact ⟨rfl, rfl⟩

/-- Extensional description of `authorizationParams`: exactly the four
optional keys, each present iff its option value is truthy. -/
theorem mem_authorizationP (o : Options) (k v : String) :
    (k, v) ∈ authorizationParams o ↔
      ((k = "domain_hint" ∧ o.domain_hint = some v ∧ v ≠ "") ∨
        (k = "login_hint" ∧ o.login_hint = some v ∧ v ≠ "") ∨
        (k = "prompt" ∧ o.prompt = some v ∧ v ≠ "") ∨
        (k = "resource" ∧ o.resource = some v ∧ v ≠ "")) := by
  simp [authorizationParams, List.mem_append, mem_entryIf]

/-- Extensional description of `tokenParams`: only a truthy `resource`. -/
theorem mem_tokenP (o : Options) (k v : String) :
    (k, v) ∈ tokenParams o ↔ (k = "resource" ∧ o.resource = some v ∧ v ≠ "") := by
  simp [tokenParams, mem_entryIf]

/-- Claim C1 (code bug): the claim says every undecodable access token makes
`userProfile` invoke its callback once with a non-null error and a null
profile without throwing.  The source's `catch` block instead evaluates the
undeclared identifier `ex` (the caught variable is `exception`), so a
`ReferenceError` is thrown out of `userProfile` and the callback is never
invoked - shown here for a token with fewer than two dot-separated segments
and for one whose payload is not decodable JSON. -/
theorem userProfile_undecodable_throws :
    userProfile "abc" = ProfileOutcome.refError ∧
    userProfile "h.!!!.s" = ProfileOutcome.refError :=
  ⟨rfl, rfl⟩

/-- Claim C2 (code bug): on a fully-populated valid token, `id`, `orgId`,
`username`, `name.givenName`, `name.familyName` and `emails[0]` all match
the claims, but the source assigns the concatenated full name to the
lowercase key `displayname`, so the `displayName` field the claim (and the
function's own doc comment) promises reads as `undefined`. -/
theorem userProfile_displayName_key_missing :
    userProfile sampleToken = ProfileOutcome.success sampleProfile ∧
    jsGet sampleProfile "id" = JsValue.str "a" ∧
    jsGet sampleProfile "orgId" = JsValue.str "b" ∧
    jsGet sampleProfile "username" = JsValue.str "c" ∧
    jsGet (jsGet sampleProfile "name") "givenName" = JsValue.str "d" ∧
    jsGet (jsGet sampleProfile "name") "familyName" = JsValue.str "e" ∧
    jsGet sampleProfile "emails" = JsValue.arr [JsValue.str "f"] ∧
    jsGet sampleProfile "displayname" = JsValue.str "d e" ∧
    jsGet sampleProfile "displayName" = JsValue.undef :=
  ⟨rfl, rfl, rfl, rfl, rfl, rfl, rfl, rfl, rfl⟩

/-- Claim C3: whenever the token decodes to a JSON object at all,
`userProfile` reaches `done(null, profile)`, and each profile field whose
claim is absent from the claim set reads as `undefined` instead of raising
an error. -/
theorem userProfile_missing_claims (t pay : String) (m : List (String × JsValue))
    (hseg : (splitOnDot t)[1]? = some pay)
    (hjson : jsonParse (utf8Decode (base64Decode pay)) = some (JsValue.obj m)) :
    ∃ p, userProfile t = ProfileOutcome.success p ∧
      (lookupField m "oid" = none → jsGet p "id" = JsValue.undef) ∧
      (lookupField m "tid" = none → jsGet p "orgId" = JsValue.undef) ∧
      (lookupField m "unique_name" = none → jsGet p "username" = JsValue.undef) ∧
      (lookupField m "given_name" = none →
        jsGet (jsGet p "name") "givenName" = JsValue.undef) ∧
      (lookupField m "family_name" = none →
        jsGet (jsGet p "name") "familyName" = JsValue.undef) ∧
      (lookupField m "email" = none → jsGet p "emails" = JsValue.arr [JsValue.undef]) := by
  refine ⟨buildProfile (utf8Decode (base64Decode pay)) (JsValue.obj m),
    ?_, ?_, ?_, ?_, ?_, ?_, ?_⟩
  · simp [userProfile, hseg, hjson]
  · intro h
    simp [buildProfile, jsGet, lookupField, h]
  · intro h
    simp [buildProfile, jsGet, lookupField, h]
  · intro h
    simp [buildProfile, jsGet, lookupField, h]
  · intro h
    simp [buildProfile, jsGet, lookupField, h]
  · intro h
    simp [buildProfile, jsGet, lookupField, h]
  · intro h
    simp [buildProfile, jsGet, lookupField, h]

/-- Witness for C3 at the token `h.e30.s`, whose payload decodes to the
empty claim set: every hypothesis is discharged by evaluation. -/
theorem userProfile_missing_claims_witness :
    ∃ p, userProfile "h.e30.s" = ProfileOutcome.success p ∧
      (lookupField ([] : List (String × JsValue)) "oid" = none →
        jsGet p "id" = JsValue.undef) ∧
      (lookupField ([] : List (String × JsValue)) "tid" = none →
        jsGet p "orgId" = JsValue.undef) ∧
      (lookupField ([] : List (String × JsValue)) "unique_name" = none →
        jsGet p "username" = JsValue.undef) ∧
      (lookupField ([] : List (String × JsValue)) "given_name" = none →
        jsGet (jsGet p "name") "givenName" = JsValue.undef) ∧
      (lookupField ([] : List (String × JsValue)) "family_name" = none →
        jsGet (jsGet p "name") "familyName" = JsValue.undef) ∧
      (lookupField ([] : List (String × JsValue)) "email" = none →
        jsGet p "emails" = JsValue.arr [JsValue.undef]) :=
  userProfile_missing_claims "h.e30.s" "e30" [] rfl rfl

/-- Counterexample to claim C4 as stated: an explicitly supplied (but
empty) authorization URL is falsy under `||`, so the constructor replaces
it with the derived URL instead of keeping it unchanged. -/
theorem strategy_empty_url_not_kept :
    ({ tenantID := some "T", authorizationURL := some "" } : Options).authorizationURL
      = some "" ∧
    (strategyInit { tenantID := some "T", authorizationURL := some "" }).authorizationURL
      ≠ some "" :=
  ⟨rfl, by decide⟩

/-- Claim C4 as amended: with both URLs absent they are derived by literal
substitution of the tenant identifier, and a supplied non-empty (truthy)
URL is kept unchanged. -/
theorem strategy_url_derivation (o : Options) (t : String) (ht : o.tenantID = some t) :
    ((o.authorizationURL = none ∧ o.tokenURL = none) →
      (strategyInit o).authorizationURL =
        some ("https://login.windows.net/" ++ t ++ "/oauth2/authorize?api-version=1.0") ∧
      (strategyInit o).tokenURL =
        some ("https://login.windows.net/" ++ t ++ "/oauth2/token?api-version=1.0")) ∧
    (∀ s : String, s ≠ "" → o.authorizationURL = some s →
      (strategyInit o).authorizationURL = some s) ∧
    (∀ s : String, s ≠ "" → o.tokenURL = some s →
      (strategyInit o).tokenURL = some s) := by
  refine ⟨?_, ?_, ?_⟩
  · rintro ⟨h1, h2⟩
    simp [strategyInit, jsOrDefault, authorizeURLFor, tokenURLFor, coerceUndef, h1, h2, ht]
  · intro s hs h
    simp [strategyInit, jsOrDefault, h, hs]
  · intro s hs h
    simp [strategyInit, jsOrDefault, h, hs]

/-- Witness for C4's amended theorem: derivation for tenant `T`, and a
supplied non-empty URL kept. -/
theorem strategy_url_derivation_witness :
    (strategyInit { tenantID := some "T" }).authorizationURL =
      some "https://login.windows.net/T/oauth2/authorize?api-version=1.0" ∧
    (strategyInit { tenantID := some "T" }).tokenURL =
      some "https://login.windows.net/T/oauth2/token?api-version=1.0" ∧
    (strategyInit
      { tenantID := some "T", authorizationURL := some "A", tokenURL := some "B" }
      ).authorizationURL = some "A" := by
  have h1 := strategy_url_derivation { tenantID := some "T" } "T" rfl
  have h2 := strategy_url_derivation
    { tenantID := some "T", authorizationURL := some "A", tokenURL := some "B" } "T" rfl
  exact ⟨(h1.1 ⟨rfl, rfl⟩).1, (h1.1 ⟨rfl, rfl⟩).2, h2.2.1 "A" (by decide) rfl⟩

/-- Counterexample to claim C5 as stated: the key `domain_hint` is present
in the options (bound to the empty string), yet the returned mapping is
empty - inclusion is decided by truthiness, not presence. -/
theorem authorizationParams_empty_value_omitted :
    ({ domain_hint := some "" } : Options).domain_hint = some "" ∧
    authorizationParams { domain_hint := some "" } = [] :=
  ⟨rfl, rfl⟩

/-- Claim C5 as amended: the mapping holds exactly the pairs among the four
optional keys whose option value is present and non-empty (truthy), in
particular it is empty for empty options and no validation of `prompt`
is performed. -/
theorem authorizationParams_truthy_keys :
    (∀ (o : Options) (k v : String),
      (k, v) ∈ authorizationParams o ↔
        ((k = "domain_hint" ∧ o.domain_hint = some v ∧ v ≠ "") ∨
          (k = "login_hint" ∧ o.login_hint = some v ∧ v ≠ "") ∨
          (k = "prompt" ∧ o.prompt = some v ∧ v ≠ "") ∨
          (k = "resource" ∧ o.resource = some v ∧ v ≠ ""))) ∧
    authorizationParams {} = [] ∧
    authorizationParams { domain_hint := some "x", prompt := some "login" } =
      [("domain_hint", "x"), ("prompt", "login")] :=
  ⟨fun o k v => mem_authorizationP o k v, rfl, rfl⟩

/-- Witness for C5's amended theorem at concrete options. -/
theorem authorizationParams_truthy_keys_witness :
    ("domain_hint", "x") ∈ authorizationParams { domain_hint := some "x" } :=
  (authorizationParams_truthy_keys.1 { domain_hint := some "x" } "domain_hint" "x").mpr
    (Or.inl ⟨rfl, rfl, by decide⟩)

/-- Counterexample to claim C6 as stated: `resource` is present in the
options (bound to the empty string), yet the returned mapping is empty. -/
theorem tokenParams_empty_value_omitted :
    ({ resource := some "" } : Options).resource = some "" ∧
    tokenParams { resource := some "" } = [] :=
  ⟨rfl, rfl⟩

/-- Claim C6 as amended: the mapping holds exactly the single pair
`resource` when that option value is present and non-empty (truthy), and is
empty otherwise. -/
theorem tokenParams_resource_only :
    (∀ (o : Options) (k v : String),
      (k, v) ∈ tokenParams o ↔ (k = "resource" ∧ o.resource = some v ∧ v ≠ "")) ∧
    tokenParams { resource := some "r" } = [("resource", "r")] ∧
    tokenParams {} = [] :=
  ⟨fun o k v => mem_tokenP o k v, rfl, rfl⟩

/-- Witness for C6's amended theorem at concrete options. -/
theorem tokenParams_resource_only_witness :
    ("resource", "r") ∈ tokenParams { resource := some "r" } :=
  (tokenParams_resource_only.1 { resource := some "r" } "resource" "r").mpr
    ⟨rfl, rfl, by decide⟩

/-- Claim C7: both parameter builders are deterministic - equal options
objects give equal mappings.  They are total pure Lean functions of the
options record alone, mirroring the source functions, which read no state
outside their argument and contain no failing operation. -/
theorem params_deterministic (o1 o2 : Options) (h : o1 = o2) :
    authorizationParams o1 = authorizationParams o2 ∧ tokenParams o1 = tokenParams o2 := by
  subst h
  exact ⟨rfl, rfl⟩

/-- Witness for C7 at concrete equal options. -/
theorem params_deterministic_witness :
    authorizationParams { domain_hint := some "x" } =
      authorizationParams { domain_hint := some "x" } ∧
    tokenParams { domain_hint := some "x" } = tokenParams { domain_hint := some "x" } :=
  params_deterministic { domain_hint := some "x" } { domain_hint := some "x" } rfl

/-- Claim C9: the constructor updates the caller's options in place -
`authorizationURL`, `tokenURL` and `scopeSeparator` are set (to the
supplied-or-derived values) after construction, and every other field of
the options object is left untouched. -/
theorem strategy_init_frame (o : Options) :
    (strategyInit o).authorizationURL =
      some (jsOrDefault o.authorizationURL (authorizeURLFor o.tenantID)) ∧
    (strategyInit o).tokenURL = some (jsOrDefault o.tokenURL (tokenURLFor o.tenantID)) ∧
    (strategyInit o).scopeSeparator = some (jsOrDefault o.scopeSeparator ",") ∧
    (strategyInit o).tenantID = o.tenantID ∧
    (strategyInit o).domain_hint = o.domain_hint ∧
    (strategyInit o).login_hint = o.login_hint ∧
    (strategyInit o).prompt = o.prompt ∧
    (strategyInit o).resource = o.resource ∧
    (strategyInit o).other = o.other :=
  ⟨rfl, rfl, rfl, rfl, rfl, rfl, rfl, rfl, rfl⟩

/-- Counterexample to claim C8 as stated: an explicitly supplied (but
empty) scope separator is falsy under `||`, so the constructor replaces it
with the default `,` instead of keeping it. -/
theorem strategy_empty_separator_not_kept :
    ({ scopeSeparator := some "" } : Options).scopeSeparator = some "" ∧
    (strategyInit { scopeSeparator := some "" }).scopeSeparator = some "," :=
  ⟨rfl, rfl⟩

/-- Claim C8 as amended: the scope separator defaults to `,` when unset,
and a supplied non-empty (truthy) separator is kept unchanged. -/
theorem strategy_scope_separator (o : Options) :
    (o.scopeSeparator = none → (strategyInit o).scopeSeparator = some ",") ∧
    (∀ s : String, s ≠ "" → o.scopeSeparator = some s →
      (strategyInit o).scopeSeparator = some s) := by
  constructor
  · intro h
    simp [strategyInit, jsOrDefault, h]
  · intro s hs h
    simp [strategyInit, jsOrDefault, h, hs]

/-- Witness for C8's amended theorem: the default and an explicit `;`. -/
theorem strategy_scope_separator_witness :
    (strategyInit {}).scopeSeparator = some "," ∧
    (strategyInit { scopeSeparator := some ";" }).scopeSeparator = some ";" :=
  ⟨(strategy_scope_separator {}).1 rfl,
    (strategy_scope_separator { scopeSeparator := some ";" }).2 ";" (by decide) rfl⟩

/-- Claim C10: a key is omitted whenever its option value is falsy, not
only when it is absent - an empty-string `domain_hint` or `resource` never
appears in the mapping, and the spec's example calls return empty
mappings. -/
theorem params_falsy_omitted :
    (∀ (o : Options) (v : String), o.domain_hint = some "" →
      ("domain_hint", v) ∉ authorizationParams o) ∧
    (∀ (o : Options) (v : String), o.resource = some "" →
      ("resource", v) ∉ tokenParams o) ∧
    authorizationParams { domain_hint := some "" } = [] ∧
    tokenParams { resource := some "" } = [] := by
  refine ⟨?_, ?_, rfl, rfl⟩
  · intro o v h hm
    rcases (mem_authorizationP o "domain_hint" v).mp hm with h1 | h1 | h1 | h1
    · rw [h] at h1
      exact h1.2.2 (Option.some.inj h1.2.1).symm
    · exact absurd h1.1 (by decide)
    · exact absurd h1.1 (by decide)
    · exact absurd h1.1 (by decide)
  · intro o v h hm
    have h1 := (mem_tokenP o "resource" v).mp hm
    rw [h] at h1
    exact h1.2.2 (Option.some.inj h1.2.1).symm

/-- Witness for C10 at concrete options with empty-string values. -/
theorem params_falsy_omitted_witness :
    ("domain_hint", "x") ∉ authorizationParams { domain_hint := some "" } ∧
    ("resource", "x") ∉ tokenParams { resource := some "" } :=
  ⟨params_falsy_omitted.1 { domain_hint := some "" } "x" rfl,
    params_falsy_omitted.2.1 { resource := some "" } "x" rfl⟩
